import Mathlib

/-!
Shallow embedding of the `simple_demo` repository: a Flask inference service
(`app.py`) exposing `POST /predict` and `GET /health` over a pre-trained
scikit-learn classifier, and a training script (`train_model.py`) that fits a
random forest on the iris dataset and writes it to `model.joblib`.

Numbers are embedded as rationals; the third-party model (scikit-learn's
`RandomForestClassifier`) is an external collaborator and is embedded as an
abstract structure of functions, with the library's shape check on the number
of features made explicit. JSON values distinguish Python ints from floats,
mirroring the `int(...)` / `float(...)` coercions in the handler.
-/

namespace SimpleDemo

/-- JSON values as handled by Flask's `request.json` / `jsonify`.
`jint` embeds a Python int, `jnum` a Python float. -/
inductive JsonVal where
  | jint (i : Int)
  | jnum (q : ℚ)
  | jstr (s : String)
  | jarr (elems : List JsonVal)
  | jobj (fields : List (String × JsonVal))
  | jnull
  deriving Repr

/-- The unhandled runtime errors that can escape the `/predict` handler
(`app.py` has no try/except): a malformed request body, a `KeyError` from
`data['features']`, a type failure turning the features into a numeric array,
scikit-learn's feature-count check, `max()` of an empty array, and an
`IndexError` from the `CLASS_NAMES[prediction]` lookup. -/
inductive PredError where
  | badJson
  | keyError
  | typeError
  | shapeMismatch
  | emptyMax
  | indexError
  deriving DecidableEq, Repr

/-- The loaded scikit-learn model (`model = joblib.load('model.joblib')`,
app.py line 6): an opaque external object with a class-prediction function, a
class-probability function, and the number of features it was trained on
(scikit-learn's `n_features_in_`, which its methods check on every call). -/
structure Model where
  nFeatures : Nat
  predict : List ℚ → Int
  predict_proba : List ℚ → List ℚ

/-- `model.predict(features)[0]`: scikit-learn raises a `ValueError` when the
single-row input does not have `n_features_in_` columns; otherwise it returns
the predicted class index of the row. -/
def Model.predictCall (m : Model) (xs : List ℚ) : Except PredError Int :=
  if xs.length = m.nFeatures then .ok (m.predict xs) else .error .shapeMismatch

/-- `model.predict_proba(features)`: same shape check as `predict`, then the
row of class probabilities. -/
def Model.probaCall (m : Model) (xs : List ℚ) : Except PredError (List ℚ) :=
  if xs.length = m.nFeatures then .ok (m.predict_proba xs) else .error .shapeMismatch

/-- `CLASS_NAMES = ['setosa', 'versicolor', 'virginica']` (app.py line 8). -/
def CLASS_NAMES : List String := ["setosa", "versicolor", "virginica"]

/-- Python list indexing `xs[i]` with an `int` index: a nonnegative index is
looked up directly, a negative index counts from the end (`i + len(xs)`), and
anything outside `[-len(xs), len(xs))` is an `IndexError` (`none`). -/
def pyIndex (xs : List String) (i : Int) : Option String :=
  if 0 ≤ i then xs.get? i.toNat
  else if 0 ≤ i + xs.length then xs.get? (i + xs.length).toNat
  else none

/-- A JSON number as a Python number; anything else is not numeric. -/
def asNum : JsonVal → Option ℚ
  | .jint i => some (i : ℚ)
  | .jnum q => some q
  | _ => none

/-- Conversion of the `features` JSON array into the numeric row that
`np.array(...)` hands to the model; a non-numeric element makes the model call
fail at runtime in the source, represented here as a conversion failure. -/
def asNums : List JsonVal → Option (List ℚ)
  | [] => some []
  | x :: xs =>
    match asNum x, asNums xs with
    | some q, some qs => some (q :: qs)
    | _, _ => none

/-- Lookup of a key in a JSON object's field list (Python `data['features']`). -/
def lookupField : List (String × JsonVal) → String → Option JsonVal
  | [], _ => none
  | (k, v) :: rest, key => if k = key then some v else lookupField rest key

/-- `data['features']`: a `KeyError` when the key is absent, and a `TypeError`
(also embedded as `none`) when `data` is not an object at all. -/
def jsonGet : JsonVal → String → Option JsonVal
  | .jobj fields, key => lookupField fields key
  | _, _ => none

/-- Lines 12–13 of app.py: `data = request.json` followed by
`np.array(data['features']).reshape(1, -1)`. A body that is not valid JSON
fails inside Flask; a missing `features` key raises `KeyError`; a
non-numeric value fails when the model consumes the array. `reshape(1, -1)`
on a flat numeric list always succeeds and keeps the entries in order. -/
def parseFeatures (body : Option JsonVal) : Except PredError (List ℚ) :=
  match body with
  | none => .error .badJson
  | some data =>
    match jsonGet data "features" with
    | none => .error .keyError
    | some fj =>
      match fj with
      | .jarr elems =>
        match asNums elems with
        | some qs => .ok qs
        | none => .error .typeError
      | _ => .error .typeError

/-- `np.max` over a row vector: the maximum of the entries, an error on an
empty array. -/
def listMax : List ℚ → Option ℚ
  | [] => none
  | x :: xs => some (xs.foldl max x)

/-- The structured result the handler assembles into its response dict
(app.py lines 18–23). -/
structure PredictResponse where
  prediction : Int
  class_name : String
  confidence : ℚ
  version : String
  deriving DecidableEq, Repr

/-- The body of `predict()` (app.py lines 10–23) up to the response dict:
parse the features, call `model.predict`, call `model.predict_proba(...).max()`,
look up `CLASS_NAMES[prediction]`, and build the four-field result. The
`names` argument is the global `CLASS_NAMES` list the handler reads. Every
failure escapes as an unhandled error; nothing is caught. -/
def predictCore (m : Model) (names : List String) (body : Option JsonVal) :
    Except PredError PredictResponse :=
  match parseFeatures body with
  | .error e => .error e
  | .ok features =>
    match m.predictCall features with
    | .error e => .error e
    | .ok prediction =>
      match m.probaCall features with
      | .error e => .error e
      | .ok probs =>
        match listMax probs with
        | none => .error .emptyMax
        | some confidence =>
          match pyIndex names prediction with
          | none => .error .indexError
          | some cn => .ok ⟨prediction, cn, confidence, "v2"⟩

/-- `jsonify({...})` on the handler's dict: `prediction` through `int(...)`,
`class_name` a string, `confidence` through `float(...)`, `version` the
literal `'v2'`; exactly these four fields, in this order. -/
def responseJson (r : PredictResponse) : JsonVal :=
  .jobj [("prediction", .jint r.prediction),
         ("class_name", .jstr r.class_name),
         ("confidence", .jnum r.confidence),
         ("version", .jstr r.version)]

/-- The full `/predict` handler: the structured computation followed by
`jsonify`. -/
def predictHandler (m : Model) (names : List String) (body : Option JsonVal) :
    Except PredError JsonVal :=
  match predictCore m names body with
  | .ok r => .ok (responseJson r)
  | .error e => .error e

/-- The `/health` handler's response, `jsonify({'status': 'healthy'})`
(app.py lines 25–27). -/
def healthJson : JsonVal := .jobj [("status", .jstr "healthy")]

/-- The process-wide state of the inference service after startup: the loaded
model object and the `CLASS_NAMES` global. Nothing in app.py ever assigns to
either. -/
structure ServerState where
  model : Model
  classNames : List String

/-- The service state right after startup (`model = joblib.load(...)` and the
module-level `CLASS_NAMES` literal). -/
def initState (m : Model) : ServerState := ⟨m, CLASS_NAMES⟩

/-- An incoming HTTP request on one of the two routes. -/
inductive Request where
  | getHealth
  | postPredict (body : Option JsonVal)

/-- Dispatch of one request: each handler returns its response and the
process state it leaves behind. -/
def handleRequest (s : ServerState) : Request → ServerState × Except PredError JsonVal
  | .getHealth => (s, .ok healthJson)
  | .postPredict body => (s, predictHandler s.model s.classNames body)

/-- The state after serving a sequence of requests. -/
def runRequests (s : ServerState) : List Request → ServerState
  | [] => s
  | r :: rs => runRequests (handleRequest s r).1 rs

/-- A request body `{"features": [...]}` with numeric entries. -/
def numBody (qs : List ℚ) : JsonVal := .jobj [("features", .jarr (qs.map .jnum))]

/-! ### Trainer (train_model.py) -/

/-- A labeled dataset as scikit-learn presents it: a matrix of feature rows
(`iris.data`) and a vector of class labels (`iris.target`). -/
structure Dataset where
  data : List (List ℚ)
  target : List Nat

/-- Modelled from the spec: `sklearn.datasets.load_iris` is an external
library call whose result the repository never inspects; per the spec the
built-in dataset has 150 samples, 4 features each, and 3 classes. -/
def irisShape (d : Dataset) : Prop :=
  d.data.length = 150 ∧ (∀ row ∈ d.data, row.length = 4) ∧
    d.target.length = 150 ∧ (∀ t ∈ d.target, t < 3)

/-- The external scikit-learn surface train_model.py calls: `load_iris()` and
`RandomForestClassifier(n_estimators=n).fit(X, y)`. Fitting is opaque; it
receives the estimator count and the full dataset and yields a fitted model. -/
structure SklearnEnv where
  load_iris : Dataset
  fitForest : Nat → Dataset → Model

/-- The files the trainer can touch: a map from path to the serialized model
stored there, if any (`joblib.dump` round-trips the object, so the blob is
embedded as the model itself). -/
def FileSystem : Type := String → Option Model

/-- train_model.py, lines 6–11: load the iris dataset, fit a
`RandomForestClassifier(n_estimators=10)` on all of `iris.data`/`iris.target`
(no train/test split), and `joblib.dump` the fitted model to
`'model.joblib'`, creating or overwriting that one file. -/
def train_model (env : SklearnEnv) (fs : FileSystem) : FileSystem :=
  let model := env.fitForest 10 env.load_iris
  fun p => if p = "model.joblib" then some model else fs p

/-! ### Concrete instances used to exercise the definitions -/

/-- A concrete stand-in for the loaded classifier: 4 input features, constant
class index 1, constant probability row `[0, 0, 1]`. -/
def mConst : Model := ⟨4, fun _ => 1, fun _ => [0, 0, 1]⟩

/-- A stand-in model that yields the out-of-range class index 7. -/
def mOut : Model := ⟨4, fun _ => 7, fun _ => [0, 0, 1]⟩

/-- A stand-in model that yields the negative class index -1. -/
def mNeg : Model := ⟨4, fun _ => -1, fun _ => [0, 0, 1]⟩

/-- A concrete scikit-learn environment: an iris-shaped dataset of 150
constant rows and a fitting function that returns `mConst`. -/
def irisEnv : SklearnEnv :=
  ⟨⟨List.replicate 150 [1, 2, 3, 4], List.replicate 150 0⟩, fun _ _ => mConst⟩

/-- An empty disk. -/
def emptyFs : FileSystem := fun _ => none

/-! ### Helper lemmas -/

lemma Model.predictCall_eq (m : Model) (xs : List ℚ) (h : xs.length = m.nFeatures) :
    m.predictCall xs = .ok (m.predict xs) := by
  simp [Model.predictCall, h]

lemma Model.predictCall_ne (m : Model) (xs : List ℚ) (h : xs.length ≠ m.nFeatures) :
    m.predictCall xs = .error .shapeMismatch := by
  simp [Model.predictCall, h]

lemma Model.probaCall_eq (m : Model) (xs : List ℚ) (h : xs.length = m.nFeatures) :
    m.probaCall xs = .ok (m.predict_proba xs) := by
  simp [Model.probaCall, h]

lemma asNums_map_jnum (qs : List ℚ) : asNums (qs.map JsonVal.jnum) = some qs := by
  induction qs with
  | nil => rfl
  | cons q qs ih => simp [asNums, asNum, ih]

lemma parseFeatures_numBody (qs : List ℚ) :
    parseFeatures (some (numBody qs)) = .ok qs := by
  simp [parseFeatures, numBody, jsonGet, lookupField, asNums_map_jnum]

/-- Behaviour of the handler core on a well-formed numeric body whose length
matches the model: parsing succeeds and everything reduces to the two model
calls, the max, and the name lookup. -/
lemma predictCore_numBody (m : Model) (names : List String) (qs : List ℚ)
    (hlen : qs.length = m.nFeatures) :
    predictCore m names (some (numBody qs)) =
      match listMax (m.predict_proba qs) with
      | none => .error .emptyMax
      | some confidence =>
        match pyIndex names (m.predict qs) with
        | none => .error .indexError
        | some cn => .ok ⟨m.predict qs, cn, confidence, "v2"⟩ := by
  simp [predictCore, parseFeatures_numBody, Model.predictCall, Model.probaCall, hlen]

/-- Inversion: every successful run of the handler core comes from a parsed
feature list of the model's arity, and the response fields are exactly the
model's prediction, the name looked up at that prediction, the max of the
probability row, and the literal version string. -/
lemma predictCore_ok_inv (m : Model) (names : List String) (body : Option JsonVal)
    (r : PredictResponse) (h : predictCore m names body = .ok r) :
    ∃ qs, parseFeatures body = .ok qs ∧ qs.length = m.nFeatures ∧
      r.prediction = m.predict qs ∧
      listMax (m.predict_proba qs) = some r.confidence ∧
      pyIndex names r.prediction = some r.class_name ∧
      r.version = "v2" := by
  unfold predictCore at h
  split at h
  · exact absurd h (by simp)
  next qs hparse =>
    by_cases hlen : qs.length = m.nFeatures
    · rw [m.predictCall_eq qs hlen, m.probaCall_eq qs hlen] at h
      dsimp only at h
      refine ⟨qs, hparse, hlen, ?_⟩
      rcases hmax : listMax (m.predict_proba qs) with _ | c
      all_goals rw [hmax] at h
      · exact absurd h (by simp)
      rcases hname : pyIndex names (m.predict qs) with _ | cn
      all_goals rw [hname] at h
      · exact absurd h (by simp)
      simp only [Except.ok.injEq] at h
      subst h
      exact ⟨rfl, rfl, hname, rfl⟩
    · rw [m.predictCall_ne qs hlen] at h
      exact absurd h (by simp)

lemma listMax_of_length_three (l : List ℚ) (h : l.length = 3) :
    ∃ a b c, l = [a, b, c] ∧ listMax l = some (max (max a b) c) := by
  match l, h with
  | [a, b, c], _ => exact ⟨a, b, c, rfl, rfl⟩

lemma max3_mem_bounds (a b c : ℚ) :
    a ≤ max (max a b) c ∧ b ≤ max (max a b) c ∧ c ≤ max (max a b) c :=
  ⟨le_trans (le_max_left a b) (le_max_left _ c),
   le_trans (le_max_right a b) (le_max_left _ c),
   le_max_right _ c⟩

/-- The max of three nonnegative rationals summing to 1 lies in `[1/3, 1]`. -/
lemma max3_dist_bounds (a b c : ℚ) (ha : 0 ≤ a) (hb : 0 ≤ b) (hc : 0 ≤ c)
    (hsum : a + b + c = 1) :
    (1 : ℚ)/3 ≤ max (max a b) c ∧ max (max a b) c ≤ 1 := by
  obtain ⟨h1, h2, h3⟩ := max3_mem_bounds a b c
  constructor
  · nlinarith [h1, h2, h3]
  · have : max (max a b) c ≤ a + b + c := by
      rcases max_cases (max a b) c with ⟨heq, _⟩ | ⟨heq, _⟩
      · rw [heq]
        rcases max_cases a b with ⟨heq2, _⟩ | ⟨heq2, _⟩ <;> rw [heq2] <;> linarith
      · rw [heq]; linarith
    linarith [hsum ▸ this]

lemma pyIndex_nonneg (xs : List String) (i : Int) (h : 0 ≤ i) :
    pyIndex xs i = xs.get? i.toNat := by
  simp [pyIndex, h]

lemma pyIndex_class_names_none_iff (i : Int) :
    pyIndex CLASS_NAMES i = none ↔ (i < -3 ∨ 3 ≤ i) := by
  unfold pyIndex CLASS_NAMES
  split_ifs with h1 h2
  · rw [List.get?_eq_none]
    simp only [List.length_cons, List.length_nil]
    omega
  · rw [List.get?_eq_none]
    simp only [List.length_cons, List.length_nil] at h2 ⊢
    omega
  · simp only [List.length_cons, List.length_nil] at h2
    constructor
    · intro _; omega
    · intro _; rfl

lemma pyIndex_class_names_isSome (i : Int) (h1 : -3 ≤ i) (h2 : i < 3) :
    ∃ cn, pyIndex CLASS_NAMES i = some cn := by
  rcases hc : pyIndex CLASS_NAMES i with _ | cn
  · rw [pyIndex_class_names_none_iff] at hc
    omega
  · exact ⟨cn, rfl⟩

/-! ### Claim theorems -/

/-- C1: for every valid 4-element numeric feature vector, the `/predict`
response has a `prediction` in {0, 1, 2} and its `class_name` is the entry of
the fixed `CLASS_NAMES` list at index `prediction`. The hypotheses are the
trained-model contract: the loaded classifier takes 4 features, produces only
class indices 0–2, and returns a 3-entry probability row. -/
theorem predict_prediction_in_range_and_name (m : Model)
    (hnf : m.nFeatures = 4)
    (hpred : ∀ xs : List ℚ, xs.length = 4 → 0 ≤ m.predict xs ∧ m.predict xs < 3)
    (hproba : ∀ xs : List ℚ, xs.length = 4 → (m.predict_proba xs).length = 3)
    (qs : List ℚ) (hlen : qs.length = 4) :
    ∃ r : PredictResponse,
      predictCore m CLASS_NAMES (some (numBody qs)) = .ok r ∧
      (r.prediction = 0 ∨ r.prediction = 1 ∨ r.prediction = 2) ∧
      CLASS_NAMES.get? r.prediction.toNat = some r.class_name := by
  have hlen' : qs.length = m.nFeatures := by rw [hlen, hnf]
  obtain ⟨hi0, hi3⟩ := hpred qs hlen
  obtain ⟨a, b, c, _, hmax⟩ := listMax_of_length_three _ (hproba qs hlen)
  obtain ⟨cn, hcn⟩ := pyIndex_class_names_isSome (m.predict qs) (by omega) hi3
  refine ⟨⟨m.predict qs, cn, max (max a b) c, "v2"⟩, ?_,
    by show m.predict qs = 0 ∨ m.predict qs = 1 ∨ m.predict qs = 2; omega, ?_⟩
  · rw [predictCore_numBody m CLASS_NAMES qs hlen', hmax]
    dsimp only
    rw [hcn]
  · rw [← pyIndex_nonneg CLASS_NAMES (m.predict qs) hi0]
    exact hcn

/-- Witness for C1 at the constant model and the feature vector
`[5, 3, 1, 0]`. -/
theorem predict_prediction_in_range_and_name_witness :
    ∃ r : PredictResponse,
      predictCore mConst CLASS_NAMES (some (numBody [5, 3, 1, 0])) = .ok r ∧
      (r.prediction = 0 ∨ r.prediction = 1 ∨ r.prediction = 2) ∧
      CLASS_NAMES.get? r.prediction.toNat = some r.class_name :=
  predict_prediction_in_range_and_name mConst rfl
    (fun _ _ => by simp [mConst])
    (fun _ _ => rfl) [5, 3, 1, 0] rfl

/-- C2: whenever `/predict` succeeds, the response is a JSON object with
exactly the four fields `prediction` (a Python int), `class_name` (a string),
`confidence` (a Python float), and `version` holding the literal `"v2"`. -/
theorem predict_response_shape (m : Model) (names : List String)
    (body : Option JsonVal) (j : JsonVal)
    (h : predictHandler m names body = .ok j) :
    ∃ (p : Int) (cn : String) (c : ℚ),
      j = .jobj [("prediction", .jint p), ("class_name", .jstr cn),
                 ("confidence", .jnum c), ("version", .jstr "v2")] := by
  unfold predictHandler at h
  split at h
  next r hr =>
    cases h
    obtain ⟨qs, _, _, _, _, _, hver⟩ := predictCore_ok_inv m names body r hr
    exact ⟨r.prediction, r.class_name, r.confidence, by simp [responseJson, hver]⟩
  next e he => exact absurd h (by simp)

/-- Witness for C2: the successful run at the constant model. -/
theorem predict_response_shape_witness :
    ∃ (p : Int) (cn : String) (c : ℚ),
      responseJson ⟨1, "versicolor", 1, "v2"⟩ =
        .jobj [("prediction", .jint p), ("class_name", .jstr cn),
               ("confidence", .jnum c), ("version", .jstr "v2")] :=
  predict_response_shape mConst CLASS_NAMES (some (numBody [5, 3, 1, 0]))
    (responseJson ⟨1, "versicolor", 1, "v2"⟩) rfl

/-- C3: whenever `/predict` succeeds, the returned `confidence` is exactly
the maximum of the probability row the model produced for the parsed input,
and it lies in `[0, 1]`. The hypothesis is the classifier contract that
`predict_proba` returns a probability distribution over the 3 classes. -/
theorem predict_confidence_is_max_proba (m : Model) (names : List String)
    (hdist : ∀ xs : List ℚ, xs.length = m.nFeatures →
      (m.predict_proba xs).length = 3 ∧ (∀ p ∈ m.predict_proba xs, 0 ≤ p) ∧
      (m.predict_proba xs).sum = 1)
    (body : Option JsonVal) (r : PredictResponse)
    (h : predictCore m names body = .ok r) :
    ∃ qs, parseFeatures body = .ok qs ∧
      listMax (m.predict_proba qs) = some r.confidence ∧
      0 ≤ r.confidence ∧ r.confidence ≤ 1 := by
  obtain ⟨qs, hp, hlen, _, hmax, _, _⟩ := predictCore_ok_inv m names body r h
  obtain ⟨hl3, hnn, hsum⟩ := hdist qs hlen
  obtain ⟨a, b, c, habc, hmax'⟩ := listMax_of_length_three _ hl3
  rw [hmax'] at hmax
  have hconf : r.confidence = max (max a b) c := by
    injection hmax with h1; exact h1.symm
  rw [habc] at hnn hsum
  simp only [List.sum_cons, List.sum_nil, add_zero] at hsum
  have ha : (0:ℚ) ≤ a := hnn a (by simp)
  have hb : (0:ℚ) ≤ b := hnn b (by simp)
  have hc : (0:ℚ) ≤ c := hnn c (by simp)
  obtain ⟨hlo, hhi⟩ := max3_dist_bounds a b c ha hb hc (by linarith)
  obtain ⟨h1, _, _⟩ := max3_mem_bounds a b c
  exact ⟨qs, hp, by rw [hmax', hconf], by rw [hconf]; exact le_trans ha h1,
         by rw [hconf]; exact hhi⟩

/-- Witness for C3 at the constant model, whose probability row `[0, 0, 1]`
is a genuine distribution. -/
theorem predict_confidence_is_max_proba_witness :
    ∃ qs, parseFeatures (some (numBody [5, 3, 1, 0])) = .ok qs ∧
      listMax (mConst.predict_proba qs) = some
        (PredictResponse.mk 1 "versicolor" 1 "v2").confidence ∧
      0 ≤ (PredictResponse.mk 1 "versicolor" 1 "v2").confidence ∧
      (PredictResponse.mk 1 "versicolor" 1 "v2").confidence ≤ 1 :=
  predict_confidence_is_max_proba mConst CLASS_NAMES
    (fun _ _ => ⟨rfl, by simp [mConst], by simp [mConst]⟩)
    (some (numBody [5, 3, 1, 0])) ⟨1, "versicolor", 1, "v2"⟩ rfl

/-- C4: `/predict` validates nothing itself. A malformed body, a body without
the `features` key, and a feature list of the wrong arity each make the
handler surface an unhandled error instead of a structured error response,
and no request — failing or not — changes the process state. -/
theorem predict_error_propagation :
    (∀ s : ServerState, handleRequest s (.postPredict none) = (s, .error .badJson)) ∧
    (∀ (s : ServerState) (fields : List (String × JsonVal)),
      lookupField fields "features" = none →
      handleRequest s (.postPredict (some (.jobj fields))) = (s, .error .keyError)) ∧
    (∀ (s : ServerState) (qs : List ℚ), qs.length ≠ s.model.nFeatures →
      handleRequest s (.postPredict (some (numBody qs))) = (s, .error .shapeMismatch)) ∧
    (∀ (s : ServerState) (body : Option JsonVal),
      (handleRequest s (.postPredict body)).1 = s) := by
  refine ⟨fun s => rfl, fun s fields hf => ?_, fun s qs hlen => ?_, fun s body => rfl⟩
  · simp [handleRequest, predictHandler, predictCore, parseFeatures, jsonGet, hf]
  · simp [handleRequest, predictHandler, predictCore, parseFeatures_numBody,
          Model.predictCall_ne s.model qs hlen]

/-- Witness for C4 at the initial state of the constant model: a missing
body, an empty JSON object, and a 1-element feature list. -/
theorem predict_error_propagation_witness :
    handleRequest (initState mConst) (.postPredict none) =
      (initState mConst, .error .badJson) ∧
    handleRequest (initState mConst) (.postPredict (some (.jobj []))) =
      (initState mConst, .error .keyError) ∧
    handleRequest (initState mConst) (.postPredict (some (numBody [1]))) =
      (initState mConst, .error .shapeMismatch) ∧
    (handleRequest (initState mConst) (.postPredict none)).1 = initState mConst :=
  ⟨predict_error_propagation.1 (initState mConst),
   predict_error_propagation.2.1 (initState mConst) [] rfl,
   predict_error_propagation.2.2.1 (initState mConst) [1] (by decide),
   predict_error_propagation.2.2.2 (initState mConst) none⟩

/-- C5: `GET /health` always returns exactly `{"status": "healthy"}`, leaves
the state untouched, and has no failure branch, whatever the model and
whatever happened before. -/
theorem health_fixed_response (s : ServerState) :
    handleRequest s .getHealth = (s, .ok (.jobj [("status", .jstr "healthy")])) := rfl

/-- C6: `/predict` is deterministic across calls: serving any sequence of
requests never changes the process state, so the same body always yields the
same response, with any other requests in between. -/
theorem predict_deterministic_across_calls (s : ServerState)
    (rs1 rs2 : List Request) (body : Option JsonVal) :
    runRequests s rs1 = s ∧
    (handleRequest (runRequests s rs1) (.postPredict body)).2 =
      (handleRequest (runRequests s rs2) (.postPredict body)).2 := by
  have hrun : ∀ rs : List Request, runRequests s rs = s := by
    intro rs
    induction rs with
    | nil => rfl
    | cons r rs ih =>
      show runRequests (handleRequest s r).1 rs = s
      cases r <;> exact ih
  exact ⟨hrun rs1, by rw [hrun rs1, hrun rs2]⟩

/-- C7: the class-index-to-name mapping is a fixed array of exactly 3
entries, no operation changes the process state (which carries it), and
inference performs no range check on the model's index: on a well-formed
request the handler's outcome is exactly the raw Python lookup
`CLASS_NAMES[prediction]`, whatever index the model produced. -/
theorem class_names_fixed_and_unvalidated :
    CLASS_NAMES.length = 3 ∧
    (∀ (s : ServerState) (r : Request), (handleRequest s r).1 = s) ∧
    (∀ (m : Model) (qs : List ℚ), qs.length = m.nFeatures →
      ∀ c, listMax (m.predict_proba qs) = some c →
      predictCore m CLASS_NAMES (some (numBody qs)) =
        match pyIndex CLASS_NAMES (m.predict qs) with
        | none => .error .indexError
        | some cn => .ok ⟨m.predict qs, cn, c, "v2"⟩) := by
  refine ⟨rfl, fun s r => by cases r <;> rfl, fun m qs hlen c hc => ?_⟩
  rw [predictCore_numBody m CLASS_NAMES qs hlen, hc]

/-- Witness for C7 at the model producing the out-of-range index 7: the
lookup, not a validation step, decides the outcome. -/
theorem class_names_fixed_and_unvalidated_witness :
    CLASS_NAMES.length = 3 ∧
    (handleRequest (initState mOut) .getHealth).1 = initState mOut ∧
    predictCore mOut CLASS_NAMES (some (numBody [1, 2, 3, 4])) =
      match pyIndex CLASS_NAMES (mOut.predict [1, 2, 3, 4]) with
      | none => .error .indexError
      | some cn => .ok ⟨mOut.predict [1, 2, 3, 4], cn, 1, "v2"⟩ :=
  ⟨class_names_fixed_and_unvalidated.1,
   class_names_fixed_and_unvalidated.2.1 (initState mOut) .getHealth,
   class_names_fixed_and_unvalidated.2.2 mOut [1, 2, 3, 4] rfl 1 rfl⟩

/-- C8: the trainer fits a 10-tree forest on the full built-in dataset of
150 samples × 4 features with 3 classes — no train/test split, the fitted
model is the fit of the whole dataset — and its only effect on disk is
creating or overwriting the single file `model.joblib`. -/
theorem train_and_save_effects (env : SklearnEnv) (fs : FileSystem)
    (hiris : irisShape env.load_iris) :
    train_model env fs "model.joblib" = some (env.fitForest 10 env.load_iris) ∧
    (∀ p, p ≠ "model.joblib" → train_model env fs p = fs p) ∧
    env.load_iris.data.length = 150 ∧
    (∀ row ∈ env.load_iris.data, row.length = 4) ∧
    env.load_iris.target.length = 150 ∧
    (∀ t ∈ env.load_iris.target, t < 3) := by
  obtain ⟨h1, h2, h3, h4⟩ := hiris
  exact ⟨by simp [train_model], fun p hp => by simp [train_model, hp],
         h1, h2, h3, h4⟩

/-- Witness for C8 at a concrete iris-shaped environment and an empty disk:
`model.joblib` is written, an unrelated path is untouched. -/
theorem train_and_save_effects_witness :
    train_model irisEnv emptyFs "model.joblib" =
      some (irisEnv.fitForest 10 irisEnv.load_iris) ∧
    train_model irisEnv emptyFs "other.txt" = emptyFs "other.txt" := by
  have hiris : irisShape irisEnv.load_iris := by
    refine ⟨rfl, fun row hr => ?_, rfl, fun t ht => ?_⟩
    · rw [List.eq_of_mem_replicate hr]; rfl
    · rw [List.eq_of_mem_replicate ht]; decide
  exact ⟨(train_and_save_effects irisEnv emptyFs hiris).1,
         (train_and_save_effects irisEnv emptyFs hiris).2.1 "other.txt" (by decide)⟩

/-- C9: the `CLASS_NAMES[prediction]` lookup fails exactly for indices
outside `[-3, 2]`; a negative index in {-3, -2, -1} silently yields the name
counted from the end of the 3-element list (−1 is `'virginica'`), so a model
returning such an index makes the handler succeed rather than raise; and for
indices in {0, 1, 2} the error branch of the lookup is unreachable. -/
theorem negative_index_lookup :
    (∀ i : Int, pyIndex CLASS_NAMES i = none ↔ (i < -3 ∨ 3 ≤ i)) ∧
    pyIndex CLASS_NAMES (-1) = some "virginica" ∧
    pyIndex CLASS_NAMES (-2) = some "versicolor" ∧
    pyIndex CLASS_NAMES (-3) = some "setosa" ∧
    (∀ (m : Model) (qs : List ℚ), qs.length = m.nFeatures →
      (m.predict_proba qs).length = 3 →
      -3 ≤ m.predict qs → m.predict qs < 0 →
      ∃ r, predictCore m CLASS_NAMES (some (numBody qs)) = .ok r ∧
        pyIndex CLASS_NAMES (m.predict qs) = some r.class_name) ∧
    (∀ i : Int, 0 ≤ i → i < 3 → (pyIndex CLASS_NAMES i).isSome) := by
  refine ⟨pyIndex_class_names_none_iff, rfl, rfl, rfl, ?_, ?_⟩
  · intro m qs hlen h3 hge hlt
    obtain ⟨a, b, c, _, hmax⟩ := listMax_of_length_three _ h3
    obtain ⟨cn, hcn⟩ := pyIndex_class_names_isSome (m.predict qs) hge (by omega)
    refine ⟨⟨m.predict qs, cn, max (max a b) c, "v2"⟩, ?_, by rw [hcn]⟩
    rw [predictCore_numBody m CLASS_NAMES qs hlen, hmax]
    dsimp only
    rw [hcn]
  · intro i h0 h3
    obtain ⟨cn, hcn⟩ := pyIndex_class_names_isSome i (by omega) h3
    simp [hcn]

/-- Witness for C9 at the model producing index −1. -/
theorem negative_index_lookup_witness :
    (pyIndex CLASS_NAMES 5 = none ↔ ((5:Int) < -3 ∨ 3 ≤ (5:Int))) ∧
    (∃ r, predictCore mNeg CLASS_NAMES (some (numBody [1, 2, 3, 4])) = .ok r ∧
      pyIndex CLASS_NAMES (mNeg.predict [1, 2, 3, 4]) = some r.class_name) ∧
    (pyIndex CLASS_NAMES 2).isSome :=
  ⟨negative_index_lookup.1 5,
   negative_index_lookup.2.2.2.2.1 mNeg [1, 2, 3, 4] rfl rfl (by decide) (by decide),
   negative_index_lookup.2.2.2.2.2 2 (by decide) (by decide)⟩

/-- C10: whenever `/predict` succeeds, the returned `confidence` is at least
1/3, the maximum of a 3-entry probability row that sums to 1. -/
theorem predict_confidence_at_least_one_third (m : Model) (names : List String)
    (hdist : ∀ xs : List ℚ, xs.length = m.nFeatures →
      (m.predict_proba xs).length = 3 ∧ (∀ p ∈ m.predict_proba xs, 0 ≤ p) ∧
      (m.predict_proba xs).sum = 1)
    (body : Option JsonVal) (r : PredictResponse)
    (h : predictCore m names body = .ok r) :
    (1:ℚ)/3 ≤ r.confidence := by
  obtain ⟨qs, hp, hlen, _, hmax, _, _⟩ := predictCore_ok_inv m names body r h
  obtain ⟨hl3, hnn, hsum⟩ := hdist qs hlen
  obtain ⟨a, b, c, habc, hmax'⟩ := listMax_of_length_three _ hl3
  rw [hmax'] at hmax
  have hconf : r.confidence = max (max a b) c := by
    injection hmax with h1; exact h1.symm
  rw [habc] at hnn hsum
  simp only [List.sum_cons, List.sum_nil, add_zero] at hsum
  obtain ⟨hlo, _⟩ := max3_dist_bounds a b c (hnn a (by simp)) (hnn b (by simp))
    (hnn c (by simp)) (by linarith)
  rw [hconf]
  exact hlo

/-- Witness for C10 at the constant model: confidence 1 ≥ 1/3. -/
theorem predict_confidence_at_least_one_third_witness :
    (1:ℚ)/3 ≤ (PredictResponse.mk 1 "versicolor" 1 "v2").confidence :=
  predict_confidence_at_least_one_third mConst CLASS_NAMES
    (fun _ _ => ⟨rfl, by simp [mConst], by simp [mConst]⟩)
    (some (numBody [5, 3, 1, 0])) ⟨1, "versicolor", 1, "v2"⟩ rfl

end SimpleDemo
